import Mathlib

/-!
# Verification of the BalancerV2 state-synchronization and quoting engine

A shallow embedding of `src/dex/balancer-v2/balancer-v2.ts`. JavaScript
objects used as string-keyed dictionaries are embedded as association
lists (`List (String × α)`); `bigint` arithmetic is embedded as `Int`
(JavaScript bigints are unbounded); exceptions caught by a
`try { ... } catch { return null }` wrapper are embedded as `Option`
results. Mutation of a freshly-cloned object (the source deep-clones the
incoming read-only state before mutating it) is embedded as a pure
function on the state value.
-/

set_option autoImplicit false

namespace BalancerV2

/-! ## Association-list maps (JavaScript objects keyed by strings) -/

/-- First-match lookup, the JavaScript `obj[key]` read (`none` = `undefined`). -/
def alookup {α : Type} : List (String × α) → String → Option α
  | [], _ => none
  | (k, v) :: rest, key => if k = key then some v else alookup rest key

/-- JavaScript `obj[key] = v`: overwrite the first binding of `key`, or append
a fresh binding when the key is absent. -/
def aset {α : Type} : List (String × α) → String → α → List (String × α)
  | [], key, v => [(key, v)]
  | (k, w) :: rest, key, v =>
    if k = key then (key, v) :: rest else (k, w) :: aset rest key v

/-- Embedding of JavaScript `.toLowerCase()` : character-wise ASCII lowering.
The strings it is applied to are hex addresses, pool ids and pool-type names,
all ASCII, where the two functions agree. (`String.toLower` itself is defined
by well-founded recursion and does not reduce inside the kernel, so the
character-list form is used.) -/
def lowerStr (s : String) : String := String.mk (s.data.map Char.toLower)

/-- Embedding of JavaScript `.slice(0, n)` : the first `n` characters. -/
def takeStr (s : String) (n : Nat) : String := String.mk (s.data.take n)

/-! ## Pool state and events

`PoolState.tokens` maps a (lower-cased) token address to its balance record;
the claims only concern the `balance` field, so a pool's state is embedded as
its token-balance map. A pool-state map keys pool addresses (lower-cased)
to pool states. -/

/-- Token-address → balance map of one pool (the `tokens` field of `PoolState`). -/
abbrev Balances := List (String × Int)

/-- Pool-address → pool-state map (`PoolStateMap` in the source). -/
abbrev PoolStateMap := List (String × Balances)

/-- The outcome of `vaultInterface.parseLog` on one log: a decoded vault event.
`Swap` and `PoolBalanceChanged` carry the argument records the handlers read;
any successfully decoded event with a different ABI name is `Other` (its name
is therefore never `"Swap"` or `"PoolBalanceChanged"`). -/
inductive VaultEvent : Type
  | Swap (poolId tokenIn tokenOut : String) (amountIn amountOut : Int)
  | PoolBalanceChanged (poolId : String) (tokens : List String) (deltas fees : List Int)
  | Other (name : String)
deriving DecidableEq

/-- The `event.args.poolId` read by `processLog` (only done for handled events). -/
def eventPoolId : VaultEvent → String
  | .Swap poolId _ _ _ _ => poolId
  | .PoolBalanceChanged poolId _ _ _ => poolId
  | .Other _ => ""

/-- `event.args.poolId.slice(0, 42).toLowerCase()`: the pool address derived
from the 32-byte pool id. -/
def eventAddress (ev : VaultEvent) : String :=
  lowerStr (takeStr (eventPoolId ev) 42)

/-- `handleSwap`: credit `amountIn` to the (lower-cased) token-in and debit
`amountOut` from the token-out, in that order. A token address absent from
the pool's record makes the source throw (`undefined.balance`); embedded as
`none`. -/
def handleSwap (tokenIn tokenOut : String) (amountIn amountOut : Int)
    (pool : Balances) : Option Balances :=
  let tIn := lowerStr tokenIn
  let tOut := lowerStr tokenOut
  match alookup pool tIn with
  | none => none
  | some bIn =>
    let pool1 := aset pool tIn (bIn + amountIn)
    match alookup pool1 tOut with
    | none => none
    | some bOut => some (aset pool1 tOut (bOut - amountOut))

/-- `handlePoolBalanceChanged`: for the i-th listed token, add
`deltas[i] - protocolFeeAmounts[i]` to its balance, left to right. A missing
token or a delta/fee list shorter than the token list makes the source throw;
embedded as `none`. -/
def handlePoolBalanceChanged : List String → List Int → List Int → Balances →
    Option Balances
  | [], _, _, pool => some pool
  | t :: ts, d :: ds, f :: fs, pool =>
    let tl := (lowerStr t)
    match alookup pool tl with
    | none => none
    | some b => handlePoolBalanceChanged ts ds fs (aset pool tl (b + (d - f)))
  | _ :: _, _, _, _ => none

/-- Dispatch of `this.handlers[event.name]` on a handled event. `Other` has no
handler entry; `processLog` never dispatches it. -/
def applyHandler (ev : VaultEvent) (pool : Balances) : Option Balances :=
  match ev with
  | .Swap _ tokenIn tokenOut amountIn amountOut =>
    handleSwap tokenIn tokenOut amountIn amountOut pool
  | .PoolBalanceChanged _ tokens deltas fees =>
    handlePoolBalanceChanged tokens deltas fees pool
  | .Other _ => some pool

/-- `processLog`: the `decoded` argument is the outcome of `vaultDecoder(log)`
(`none` = the decoder threw). The source first deep-clones the incoming state,
so the caller's snapshot is never mutated; the clone is embedded by returning
a new state value. A throw anywhere inside the `try` (decode failure or a
handler throw) is caught and yields `null`. An event whose name has no handler,
or whose pool address is not tracked, leaves the (cloned) state as is. -/
def processLog (state : PoolStateMap) (decoded : Option VaultEvent) :
    Option PoolStateMap :=
  match decoded with
  | none => none
  | some (.Other _) => some state
  | some ev =>
    let poolAddress := eventAddress ev
    match alookup state poolAddress with
    | none => some state
    | some pool =>
      match applyHandler ev pool with
      | none => none
      | some pool2 => some (aset state poolAddress pool2)

/-! ## Subgraph pool descriptors and the strategy registry

The per-category pricing strategies (`WeightedPool`, `StablePool`, …) are
external collaborators implemented outside this file's source; the quoting
layer consults them only through the fixed contract
`parsePoolPairData` / `checkBalance` / `onSell`. They are embedded as an
abstract registry value (`String → PoolStrategy`) passed to the functions
that the source reaches through `this.pools[pool.poolType]`. -/

/-- The trade side (`SwapSide` in the constants module). -/
inductive SwapSide : Type
  | SELL
  | BUY
deriving DecidableEq

/-- A token as used by the quote entry points (`Token` in the source). -/
structure Token where
  address : String
  decimals : Nat
deriving DecidableEq

/-- A constituent token of a subgraph pool descriptor; `linearPoolAddr` is set
on the synthetic tokens of a VirtualBoosted descriptor. -/
structure SGToken where
  address : String
  decimals : Nat
  linearPoolAddr : Option String
deriving DecidableEq

/-- A pool descriptor as fetched from the subgraph (`SubgraphPoolBase`). -/
structure SubgraphPool where
  id : String
  address : String
  poolType : String
  tokens : List SGToken
deriving DecidableEq

/-- One main-token record of a virtual-boosted group (its spoke pool). -/
structure VBMainToken where
  address : String
  linearPoolAddr : String
deriving DecidableEq

/-- A virtual-boosted group: the spoke record per main token. -/
structure VBInfo where
  mainTokens : List VBMainToken
deriving DecidableEq

/-- `BoostedPools`: virtual-boosted groups keyed by the group id. -/
abbrev BoostedPools := List (String × VBInfo)

/-- The values of the `BalancerPoolTypes` enumeration. -/
def supportedPoolTypes : List String :=
  ["Weighted", "Stable", "MetaStable", "LiquidityBootstrapping", "Investment",
   "AaveLinear", "StablePhantom", "VirtualBoosted", "ERC4626Linear"]

/-- `isSupportedPool`: membership of the pool type in `BalancerPoolTypes`. -/
def isSupportedPool (poolType : String) : Bool :=
  supportedPoolTypes.contains poolType

/-- The pair data a strategy's `parsePoolPairData` produces; the quoting layer
itself reads only its `gasCost` field, the rest is opaque to it. -/
structure PoolPairData where
  gasCost : Nat
  payload : List Int

/-- The strategy contract consumed through `this.pools[poolType]`. -/
structure PoolStrategy where
  parsePoolPairData : SubgraphPool → PoolStateMap → String → String → PoolPairData
  checkBalance : List Int → Int → SwapSide → PoolPairData → Bool
  onSell : List Int → PoolPairData → List Int

/-- The record `getPricesPool` returns on success. -/
structure PricesPoolResult where
  unit : Int
  prices : List Int
  gasCost : Nat
deriving DecidableEq

/-- `getPricesPool`: reject unsupported pool types; replace the first element
of the amount vector by the unit-probe volume; reject when `checkBalance`
says the trade is unsafe; otherwise price with `onSell`, reporting the first
output as the `unit` price and `0` in the first slot of `prices`. -/
def getPricesPool (strategies : String → PoolStrategy) (fromT toT : Token)
    (pool : SubgraphPool) (poolStates : PoolStateMap) (amounts : List Int)
    (unitVolume : Int) (side : SwapSide) : Option PricesPoolResult :=
  if isSupportedPool pool.poolType then
    let _amounts := unitVolume :: amounts.drop 1
    let strat := strategies pool.poolType
    let poolPairData := strat.parsePoolPairData pool poolStates fromT.address toT.address
    if strat.checkBalance amounts unitVolume side poolPairData then
      let _prices := strat.onSell _amounts poolPairData
      some { unit := _prices.headD 0, prices := 0 :: _prices.drop 1,
             gasCost := poolPairData.gasCost }
    else none
  else none

/-! ## The non-event pool-state cache -/

/-- `PoolStateCache`: the single in-memory cache entry for non-event pools. -/
structure PoolStateCache where
  blockNumber : Nat
  poolState : PoolStateMap
deriving DecidableEq

/-- `getNonEventPoolStateCache`: returns the cached map when the requested
height matches, else clears the held map (the recorded height itself is only
rewritten by the next update). -/
def getNonEventPoolStateCache (c : PoolStateCache) (blockNumber : Nat) :
    PoolStateMap × PoolStateCache :=
  if c.blockNumber ≠ blockNumber then ([], { c with poolState := [] })
  else (c.poolState, c)

/-- JavaScript `{...o, ...n}`: keys of `o` in place with values overridden by
`n`, then the keys of `n` not present in `o`. -/
def mergeMaps {α : Type} (o n : List (String × α)) : List (String × α) :=
  (o.map fun kv =>
    match alookup n kv.1 with
    | some v => (kv.1, v)
    | none => kv) ++
  n.filter fun kv => (alookup o kv.1).isNone

/-- `updateNonEventPoolStateCache`: overwrite the whole cache when the height
differs, merge into the held map when it matches; returns the held map. -/
def updateNonEventPoolStateCache (c : PoolStateCache) (poolState : PoolStateMap)
    (blockNumber : Nat) : PoolStateMap × PoolStateCache :=
  if c.blockNumber ≠ blockNumber then
    (poolState, { blockNumber := blockNumber, poolState := poolState })
  else
    let merged := mergeMaps c.poolState poolState
    (merged, { c with poolState := merged })

/-- One call against the non-event cache: a read
(`getNonEventPoolStateCache`) or a write (`updateNonEventPoolStateCache`),
each carrying its requested block height. -/
inductive CacheOp : Type
  | get (blockNumber : Nat)
  | update (poolState : PoolStateMap) (blockNumber : Nat)

/-- The cache after one call. -/
def applyCacheOp (c : PoolStateCache) : CacheOp → PoolStateCache
  | .get bn => (getNonEventPoolStateCache c bn).2
  | .update ps bn => (updateNonEventPoolStateCache c ps bn).2

/-- The cache after a call sequence, from the constructor's initial value
`{ blockNumber: 0, poolState: {} }`. -/
def runCacheOps (ops : List CacheOp) : PoolStateCache :=
  ops.foldl applyCacheOp { blockNumber := 0, poolState := [] }

/-- Ghost-instrumented cache: each held pool state carries the height of the
update call that inserted it. -/
structure TaggedCache where
  blockNumber : Nat
  entries : List (String × (Balances × Nat))

/-- Tag every entry of a pool-state map with an insertion height. -/
def tagMap (ps : PoolStateMap) (bn : Nat) : List (String × (Balances × Nat)) :=
  ps.map fun kv => (kv.1, (kv.2, bn))

/-- The instrumented evolution mirroring `applyCacheOp`. -/
def applyTaggedOp (c : TaggedCache) : CacheOp → TaggedCache
  | .get bn => if c.blockNumber ≠ bn then { c with entries := [] } else c
  | .update ps bn =>
    if c.blockNumber ≠ bn then { blockNumber := bn, entries := tagMap ps bn }
    else { c with entries := mergeMaps c.entries (tagMap ps bn) }

/-- The instrumented cache after a call sequence from the initial value. -/
def runTaggedOps (ops : List CacheOp) : TaggedCache :=
  ops.foldl applyTaggedOp { blockNumber := 0, entries := [] }

/-- Every held entry was inserted at the cache's recorded height. -/
def tagsConsistent (c : TaggedCache) : Prop :=
  ∀ kv ∈ c.entries, kv.2.2 = c.blockNumber

/-- Forget the instrumentation. -/
def eraseTags (c : TaggedCache) : PoolStateCache :=
  { blockNumber := c.blockNumber,
    poolState := c.entries.map fun kv => (kv.1, kv.2.1) }

/-! ## The quote entry points -/

/-- JavaScript `delete obj[key]`. -/
def adelete {α : Type} (m : List (String × α)) (k : String) : List (String × α) :=
  m.filter fun kv => kv.1 ≠ k

/-- `for (const addr of ...) delete obj[addr]`. -/
def deleteKeys {α : Type} (m : List (String × α)) (ks : List String) :
    List (String × α) :=
  ks.foldl adelete m

/-- The event-snapshot view `getPricesVolume` prices from: the `getState`
result (`{}` when `getState` returned `null`) with every disabled pool
address deleted. -/
def eventStatesView (ro : Option PoolStateMap) (disabled : List String) :
    PoolStateMap :=
  deleteKeys (ro.getD []) disabled

/-- `getPools`: the pools whose token set contains both addresses
(case-insensitively), capped at the first 10. -/
def getPools (allPools : List SubgraphPool) (fromT toT : Token) :
    List SubgraphPool :=
  (allPools.filter fun p =>
    (p.tokens.any fun t => lowerStr t.address == lowerStr fromT.address) &&
    (p.tokens.any fun t => lowerStr t.address == lowerStr toT.address)).take 10

/-- `pool.id.split(pool.poolType.toLowerCase())[0]`: the group id under which
a virtual-boosted descriptor is keyed in the `virtualBoostedPools`
dictionary. (The pool types involved are the non-empty enumeration names,
where `String.splitOn` agrees with the JavaScript `split`.) -/
def poolGroupId (pool : SubgraphPool) : String :=
  (pool.id.splitOn (lowerStr pool.poolType)).headD pool.id

/-- The `limitPools` membership test of `getPricesVolume`: the plain
`{dexKey}_{address}` id must be listed, and when the group id resolves to a
virtual-boosted group, the `...virtualboosted` id and every spoke's
`{dexKey}_{linearPoolAddr}` id must be listed as well. -/
def limitPoolsFilter (dexKey : String) (vbPools : BoostedPools)
    (limitPools : List String) (pool : SubgraphPool) : Bool :=
  if !(limitPools.contains (dexKey ++ "_" ++ lowerStr pool.address)) then false
  else
    match alookup vbPools (poolGroupId pool) with
    | some vb =>
      limitPools.contains (dexKey ++ "_" ++ lowerStr pool.address ++ "virtualboosted") &&
      vb.mainTokens.all fun t =>
        limitPools.contains (dexKey ++ "_" ++ lowerStr t.linearPoolAddr)
    | none => true

/-- One element of the `ExchangePrices` list `getPricesVolume` returns. -/
structure PoolPricesEntry where
  unit : Int
  prices : List Int
  poolId : String
  poolAddresses : List String
  exchange : String
  gasCost : Nat
  poolIdentifier : String
deriving DecidableEq

/-- The per-instance configuration read through `this` by the quote entry
points: the dex key, the pool lists the event pool holds, the disabled-pool
set, the strategy registry, and the host's ETH-wrapping map. -/
structure DexConfig where
  dexKey : String
  allPools : List SubgraphPool
  virtualBoostedPools : BoostedPools
  eventDisabledPools : List String
  strategies : String → PoolStrategy
  wrapETH : Token → Token

/-- The body of `allowedPools.map(...)` in `getPricesVolume`: drop the pool
when neither the (disabled-filtered) event view nor the non-event map holds a
state for it, otherwise price it via `getPricesPool` against the merged map
and attach the identifiers (a virtual-boosted pool also lists its spoke
addresses). -/
def pricePool (cfg : DexConfig) (fromT toT : Token) (amounts : List Int)
    (unitVolume : Int) (side : SwapSide)
    (eventPoolStates nonEventPoolStates completePoolStates : PoolStateMap)
    (pool : SubgraphPool) : Option PoolPricesEntry :=
  let poolAddress := lowerStr pool.address
  let poolState :=
    match alookup eventPoolStates poolAddress with
    | some s => some s
    | none => alookup nonEventPoolStates poolAddress
  match poolState with
  | none => none
  | some _ =>
    match getPricesPool cfg.strategies fromT toT pool completePoolStates amounts
        unitVolume side with
    | none => none
    | some res =>
      let extra :=
        match alookup cfg.virtualBoostedPools (poolGroupId pool) with
        | some vb => vb.mainTokens.map fun t => lowerStr t.linearPoolAddr
        | none => []
      some { unit := res.unit, prices := res.prices, poolId := pool.id,
             poolAddresses := poolAddress :: extra, exchange := cfg.dexKey,
             gasCost := res.gasCost,
             poolIdentifier := cfg.dexKey ++ "_" ++ pool.id }

/-- `getPricesVolume`. The externally-supplied pieces are explicit arguments:
`getStateResult` is what `this.eventPools.getState(blockNumber)` resolved to
(`none` = `null`), `onChainFetch` is the batched on-chain read
`this.eventPools.getOnChainState` pinned to the block height it is given, and
`cache` is the current `nonEventPoolStateCache` (returned updated). -/
def getPricesVolume (cfg : DexConfig) (fromT toT : Token) (amounts : List Int)
    (side : SwapSide) (blockNumber : Nat) (limitPools : Option (List String))
    (getStateResult : Option PoolStateMap)
    (onChainFetch : List SubgraphPool → Nat → PoolStateMap)
    (cache : PoolStateCache) : Option (List PoolPricesEntry) × PoolStateCache :=
  if side = SwapSide.BUY then (none, cache)
  else
    let _from := cfg.wrapETH fromT
    let _to := cfg.wrapETH toT
    let poolsWithTokens := getPools cfg.allPools _from _to
    let allowedPools :=
      match limitPools with
      | some lp => poolsWithTokens.filter
          (limitPoolsFilter cfg.dexKey cfg.virtualBoostedPools lp)
      | none => poolsWithTokens
    if allowedPools.isEmpty then (none, cache)
    else
      let unitVolume : Int :=
        (10 : Int) ^ (if side = SwapSide.SELL then _from.decimals else _to.decimals)
      let eventPoolStates := eventStatesView getStateResult cfg.eventDisabledPools
      let fetched := getNonEventPoolStateCache cache blockNumber
      let missingPools := allowedPools.filter fun p =>
        !((alookup eventPoolStates (lowerStr p.address)).isSome ||
          (alookup fetched.1 (lowerStr p.address)).isSome)
      let updated :=
        if missingPools.length > 0 then
          updateNonEventPoolStateCache fetched.2
            (onChainFetch missingPools blockNumber) blockNumber
        else fetched
      let completePoolStates := mergeMaps (getStateResult.getD []) updated.1
      let poolPrices := allowedPools.filterMap
        (pricePool cfg _from _to amounts unitVolume side eventPoolStates
          updated.1 completePoolStates)
      (some poolPrices, updated.2)

/-- An element of the adapters list (`Adapters[network]`). -/
structure AdapterEntry where
  name : String
  index : Nat
deriving DecidableEq

/-- `getAdapters`: `null` on the buy side, the configured adapters otherwise
(`adapters` itself may be absent for the network). -/
def getAdapters (adapters : Option (List AdapterEntry)) (side : SwapSide) :
    Option (List AdapterEntry) :=
  if side = SwapSide.BUY then none else adapters

/-- `getPoolIdentifiers`: empty on the buy side; otherwise the
`{dexKey}_{address}` id per candidate pool, a VirtualBoosted candidate adding
its `...virtualboosted` id and one id per constituent's linear pool address
(the JavaScript template renders a missing address as `"undefined"`). -/
def getPoolIdentifiers (cfg : DexConfig) (fromT toT : Token) (side : SwapSide)
    (blockNumber : Nat) : List String :=
  if side = SwapSide.BUY then []
  else
    let _from := cfg.wrapETH fromT
    let _to := cfg.wrapETH toT
    let pools := getPools cfg.allPools _from _to
    pools.foldl
      (fun acc p =>
        let acc1 := acc ++ [cfg.dexKey ++ "_" ++ lowerStr p.address]
        if p.poolType == "VirtualBoosted" then
          acc1 ++ [cfg.dexKey ++ "_" ++ lowerStr p.address ++ "virtualboosted"] ++
            p.tokens.map fun t =>
              cfg.dexKey ++ "_" ++
                (match t.linearPoolAddr with
                 | some a => lowerStr a
                 | none => "undefined")
        else acc1)
      []

/-! ## Concrete fixtures (used to instantiate the theorems) -/

/-- A concrete strategy: constant pair data, always-passing balance check,
and a sell curve returning the amounts unchanged. -/
def idStrategy : PoolStrategy :=
  { parsePoolPairData := fun _ _ _ _ => { gasCost := 42, payload := [] },
    checkBalance := fun _ _ _ _ => true,
    onSell := fun amts _ => amts }

/-- A concrete two-token Weighted pool descriptor. -/
def demoPool : SubgraphPool :=
  { id := "0xp1weighted", address := "0xp1", poolType := "Weighted",
    tokens := [{ address := "0xa", decimals := 0, linearPoolAddr := none },
               { address := "0xb", decimals := 0, linearPoolAddr := none }] }

/-- A concrete instance whose disabled-pool set holds `demoPool`'s address. -/
def demoConfigDisabled : DexConfig :=
  { dexKey := "BalancerV2", allPools := [demoPool], virtualBoostedPools := [],
    eventDisabledPools := ["0xp1"], strategies := fun _ => idStrategy,
    wrapETH := fun t => t }

/-- The same instance with an empty disabled-pool set. -/
def demoConfig : DexConfig :=
  { demoConfigDisabled with eventDisabledPools := [] }

/-! ## Helper lemmas -/

theorem alookup_aset_self {α : Type} (m : List (String × α)) (k : String) (v : α) :
    alookup (aset m k v) k = some v := by
  induction m with
  | nil => simp [aset, alookup]
  | cons hd tl ih =>
    obtain ⟨k', w⟩ := hd
    by_cases h : k' = k <;> simp [aset, alookup, h, ih]

theorem alookup_aset_ne {α : Type} (m : List (String × α)) (k k' : String) (v : α)
    (h : k ≠ k') : alookup (aset m k v) k' = alookup m k' := by
  induction m with
  | nil => simp [aset, alookup, h]
  | cons hd tl ih =>
    obtain ⟨k₀, w⟩ := hd
    by_cases h0 : k₀ = k
    · subst h0
      simp [aset, alookup, h]
    · simp only [aset, if_neg h0]
      by_cases h1 : k₀ = k' <;> simp [alookup, h1, ih]

/-- Positional specification of `handlePoolBalanceChanged`: with equal-length
argument lists, pairwise-distinct lower-cased tokens, and every token present
in the pool record, each listed token's balance moves by its `delta - fee`
and every other key is untouched. -/
theorem handlePoolBalanceChanged_spec (tokens : List String) (deltas fees : List Int)
    (pool : Balances)
    (hd : tokens.length = deltas.length) (hf : tokens.length = fees.length)
    (hnodup : (tokens.map lowerStr).Nodup)
    (hpres : ∀ t ∈ tokens, ∃ b, alookup pool (lowerStr t) = some b) :
    ∃ pool2, handlePoolBalanceChanged tokens deltas fees pool = some pool2 ∧
      (∀ t d f, (t, d, f) ∈ tokens.zip (deltas.zip fees) →
        ∃ b, alookup pool (lowerStr t) = some b ∧
          alookup pool2 (lowerStr t) = some (b + (d - f))) ∧
      (∀ s, s ∉ tokens.map lowerStr → alookup pool2 s = alookup pool s) := by
  induction tokens generalizing deltas fees pool with
  | nil =>
    exact ⟨pool, rfl, by simp, fun s _ => rfl⟩
  | cons t ts ih =>
    match deltas, fees with
    | d :: ds, f :: fs =>
      simp only [List.map_cons, List.nodup_cons] at hnodup
      obtain ⟨hthead, htail⟩ := hnodup
      obtain ⟨b, hb⟩ := hpres t (List.mem_cons_self t ts)
      have hlen1 : ts.length = ds.length := by simpa using hd
      have hlen2 : ts.length = fs.length := by simpa using hf
      have hne : ∀ t' ∈ ts, (lowerStr t') ≠ (lowerStr t) := by
        intro t' ht' heq
        exact hthead (heq ▸ List.mem_map_of_mem lowerStr ht')
      have hpres2 : ∀ t' ∈ ts, ∃ b',
          alookup (aset pool (lowerStr t) (b + (d - f))) (lowerStr t') = some b' := by
        intro t' ht'
        obtain ⟨b', hb'⟩ := hpres t' (List.mem_cons_of_mem t ht')
        exact ⟨b', by rw [alookup_aset_ne _ _ _ _ (fun h => hne t' ht' h.symm), hb']⟩
      obtain ⟨pool2, hrun, hmem, hother⟩ :=
        ih ds fs (aset pool (lowerStr t) (b + (d - f))) hlen1 hlen2 htail hpres2
      refine ⟨pool2, ?_, ?_, ?_⟩
      · simp only [handlePoolBalanceChanged, hb]
        exact hrun
      · intro t' d' f' hmem'
        simp only [List.zip_cons_cons, List.mem_cons, Prod.mk.injEq] at hmem'
        rcases hmem' with ⟨rfl, rfl, rfl⟩ | hmem'
        · refine ⟨b, hb, ?_⟩
          rw [hother _ hthead, alookup_aset_self]
        · have ht' : t' ∈ ts := (List.of_mem_zip hmem').1
          obtain ⟨b', hb', hres⟩ := hmem t' d' f' hmem'
          rw [alookup_aset_ne _ _ _ _ (fun h => hne t' ht' h.symm)] at hb'
          exact ⟨b', hb', hres⟩
      · intro s hs
        simp only [List.map_cons, List.mem_cons, not_or] at hs
        rw [hother s hs.2, alookup_aset_ne _ _ _ _ (fun h => hs.1 h.symm)]

/-! ## Claim theorems: event application -/

/-- C1: applying a decoded `Swap` event addressed to a tracked pool adds the
amount-in to the token-in balance, subtracts the amount-out from the token-out
balance, and leaves every other token of that pool and every other pool
untouched. -/
theorem swap_event_effect (state : PoolStateMap) (poolId tokenIn tokenOut : String)
    (amountIn amountOut : Int) (pool : Balances) (bIn bOut : Int)
    (hpool : alookup state (lowerStr (takeStr poolId 42)) = some pool)
    (hIn : alookup pool (lowerStr tokenIn) = some bIn)
    (hOut : alookup pool (lowerStr tokenOut) = some bOut)
    (hne : (lowerStr tokenIn) ≠ (lowerStr tokenOut)) :
    ∃ newPool : Balances,
      processLog state (some (VaultEvent.Swap poolId tokenIn tokenOut amountIn amountOut)) =
        some (aset state (lowerStr (takeStr poolId 42)) newPool) ∧
      alookup newPool (lowerStr tokenIn) = some (bIn + amountIn) ∧
      alookup newPool (lowerStr tokenOut) = some (bOut - amountOut) ∧
      (∀ t, t ≠ (lowerStr tokenIn) → t ≠ (lowerStr tokenOut) →
        alookup newPool t = alookup pool t) ∧
      (alookup (aset state (lowerStr (takeStr poolId 42)) newPool) (lowerStr (takeStr poolId 42)) =
        some newPool) ∧
      (∀ a, a ≠ lowerStr (takeStr poolId 42) →
        alookup (aset state (lowerStr (takeStr poolId 42)) newPool) a = alookup state a) := by
  refine ⟨aset (aset pool (lowerStr tokenIn) (bIn + amountIn)) (lowerStr tokenOut) (bOut - amountOut),
    ?_, ?_, ?_, ?_, ?_, ?_⟩
  · have haddr : eventAddress (VaultEvent.Swap poolId tokenIn tokenOut amountIn amountOut) =
        lowerStr (takeStr poolId 42) := rfl
    have h1 : alookup (aset pool (lowerStr tokenIn) (bIn + amountIn)) (lowerStr tokenOut) =
        some bOut := by rw [alookup_aset_ne _ _ _ _ hne, hOut]
    simp only [processLog, haddr, hpool, applyHandler, handleSwap, hIn, h1]
  · rw [alookup_aset_ne _ _ _ _ (Ne.symm hne), alookup_aset_self]
  · rw [alookup_aset_self]
  · intro t h1 h2
    rw [alookup_aset_ne _ _ _ _ (Ne.symm h2), alookup_aset_ne _ _ _ _ (Ne.symm h1)]
  · rw [alookup_aset_self]
  · intro a ha
    rw [alookup_aset_ne _ _ _ _ (Ne.symm ha)]

/-- C1 witness: the spec scenario — pool P1 with balances A=1000, B=2000, a
Swap with amountIn=50, amountOut=95 yields A=1050, B=1905, P2 untouched. -/
theorem swap_event_effect_witness :
    alookup ([("0xp1", [("0xa", (1000 : Int)), ("0xb", 2000)]),
              ("0xp2", [("0xa", 5000), ("0xb", 5000)])] : PoolStateMap)
        (lowerStr (takeStr "0xp1" 42)) = some [("0xa", 1000), ("0xb", 2000)] ∧
    ∃ newPool : Balances,
      processLog [("0xp1", [("0xa", 1000), ("0xb", 2000)]),
                  ("0xp2", [("0xa", 5000), ("0xb", 5000)])]
          (some (VaultEvent.Swap "0xp1" "0xa" "0xb" 50 95)) =
        some (aset [("0xp1", [("0xa", 1000), ("0xb", 2000)]),
                    ("0xp2", [("0xa", 5000), ("0xb", 5000)])]
               (lowerStr (takeStr "0xp1" 42)) newPool) ∧
      alookup newPool ((lowerStr "0xa")) = some (1000 + 50) ∧
      alookup newPool ((lowerStr "0xb")) = some (2000 - 95) ∧
      (∀ t, t ≠ (lowerStr "0xa") → t ≠ (lowerStr "0xb") →
        alookup newPool t = alookup [("0xa", 1000), ("0xb", 2000)] t) ∧
      (alookup (aset [("0xp1", [("0xa", 1000), ("0xb", 2000)]),
                      ("0xp2", [("0xa", 5000), ("0xb", 5000)])]
                 (lowerStr (takeStr "0xp1" 42)) newPool) (lowerStr (takeStr "0xp1" 42)) =
        some newPool) ∧
      (∀ a, a ≠ lowerStr (takeStr "0xp1" 42) →
        alookup (aset [("0xp1", [("0xa", 1000), ("0xb", 2000)]),
                       ("0xp2", [("0xa", 5000), ("0xb", 5000)])]
                  (lowerStr (takeStr "0xp1" 42)) newPool) a =
          alookup [("0xp1", [("0xa", 1000), ("0xb", 2000)]),
                   ("0xp2", [("0xa", 5000), ("0xb", 5000)])] a) :=
  ⟨by decide,
   swap_event_effect _ "0xp1" "0xa" "0xb" 50 95 _ 1000 2000
     (by decide) (by decide) (by decide) (by decide)⟩

/-- C2: applying a decoded `PoolBalanceChanged` event addressed to a tracked
pool changes, in one state transition, each listed token's balance by exactly
that token's `delta - protocolFeeAmount`, and changes nothing else (no other
token of the pool, no other pool). -/
theorem balance_changed_event_effect (state : PoolStateMap) (poolId : String)
    (tokens : List String) (deltas fees : List Int) (pool : Balances)
    (hpool : alookup state (lowerStr (takeStr poolId 42)) = some pool)
    (hd : tokens.length = deltas.length) (hf : tokens.length = fees.length)
    (hnodup : (tokens.map lowerStr).Nodup)
    (hpres : ∀ t ∈ tokens, ∃ b, alookup pool (lowerStr t) = some b) :
    ∃ newPool : Balances,
      processLog state (some (VaultEvent.PoolBalanceChanged poolId tokens deltas fees)) =
        some (aset state (lowerStr (takeStr poolId 42)) newPool) ∧
      (∀ t d f, (t, d, f) ∈ tokens.zip (deltas.zip fees) →
        ∃ b, alookup pool (lowerStr t) = some b ∧
          alookup newPool (lowerStr t) = some (b + (d - f))) ∧
      (∀ s, s ∉ tokens.map lowerStr → alookup newPool s = alookup pool s) ∧
      (alookup (aset state (lowerStr (takeStr poolId 42)) newPool)
        (lowerStr (takeStr poolId 42)) = some newPool) ∧
      (∀ a, a ≠ lowerStr (takeStr poolId 42) →
        alookup (aset state (lowerStr (takeStr poolId 42)) newPool) a =
          alookup state a) := by
  obtain ⟨pool2, hrun, hmem, hother⟩ :=
    handlePoolBalanceChanged_spec tokens deltas fees pool hd hf hnodup hpres
  refine ⟨pool2, ?_, hmem, hother, alookup_aset_self _ _ _,
    fun a ha => alookup_aset_ne _ _ _ _ (Ne.symm ha)⟩
  have haddr : eventAddress (VaultEvent.PoolBalanceChanged poolId tokens deltas fees) =
      lowerStr (takeStr poolId 42) := rfl
  simp only [processLog, haddr, hpool, applyHandler, hrun]

/-- C2 witness: a two-token pool, deltas [10, -3], fees [1, 0] — balances move
by +9 and -3 respectively, nothing else changes. -/
theorem balance_changed_event_effect_witness :
    alookup ([("0xp1", [("0xa", (1000 : Int)), ("0xb", 2000)])] : PoolStateMap)
        (lowerStr (takeStr "0xp1" 42)) = some [("0xa", 1000), ("0xb", 2000)] ∧
    (["0xa", "0xb"].map lowerStr).Nodup ∧
    ∃ newPool : Balances,
      processLog [("0xp1", [("0xa", 1000), ("0xb", 2000)])]
          (some (VaultEvent.PoolBalanceChanged "0xp1" ["0xa", "0xb"] [10, -3] [1, 0])) =
        some (aset [("0xp1", [("0xa", 1000), ("0xb", 2000)])]
               (lowerStr (takeStr "0xp1" 42)) newPool) ∧
      (∀ t d f, (t, d, f) ∈ ["0xa", "0xb"].zip ([(10 : Int), -3].zip [1, 0]) →
        ∃ b, alookup [("0xa", 1000), ("0xb", 2000)] (lowerStr t) = some b ∧
          alookup newPool (lowerStr t) = some (b + (d - f))) ∧
      (∀ s, s ∉ ["0xa", "0xb"].map lowerStr →
        alookup newPool s = alookup [("0xa", 1000), ("0xb", 2000)] s) ∧
      (alookup (aset [("0xp1", [("0xa", 1000), ("0xb", 2000)])]
                 (lowerStr (takeStr "0xp1" 42)) newPool)
        (lowerStr (takeStr "0xp1" 42)) = some newPool) ∧
      (∀ a, a ≠ lowerStr (takeStr "0xp1" 42) →
        alookup (aset [("0xp1", [("0xa", 1000), ("0xb", 2000)])]
                  (lowerStr (takeStr "0xp1" 42)) newPool) a =
          alookup [("0xp1", [("0xa", 1000), ("0xb", 2000)])] a) :=
  ⟨by decide, by decide,
   balance_changed_event_effect _ "0xp1" ["0xa", "0xb"] [10, -3] [1, 0] _
     (by decide) (by decide) (by decide) (by decide)
     (by intro t ht
         fin_cases ht
         · exact ⟨1000, by decide⟩
         · exact ⟨2000, by decide⟩)⟩

/-- C4: a log whose decode throws, or whose handler application throws (for
example a token address absent from the tracked pool's record), makes
`processLog` return `null` rather than propagate the exception; the caller's
snapshot value is untouched (the embedding is a pure function because the
source mutates only its own deep clone). -/
theorem processLog_failure_returns_null :
    (∀ state : PoolStateMap, processLog state none = none) ∧
    (∀ (state : PoolStateMap) (ev : VaultEvent) (pool : Balances),
      alookup state (eventAddress ev) = some pool →
      applyHandler ev pool = none →
      processLog state (some ev) = none) := by
  refine ⟨fun _ => rfl, fun state ev pool hpool happ => ?_⟩
  cases ev with
  | Swap poolId tokenIn tokenOut amountIn amountOut =>
    simp only [processLog, hpool, happ]
  | PoolBalanceChanged poolId tokens deltas fees =>
    simp only [processLog, hpool, happ]
  | Other name =>
    simp [applyHandler] at happ

/-- C4 witness: a Swap whose token-in is not recorded for the tracked pool —
the handler throws in the source, and `processLog` yields `null`. -/
theorem processLog_failure_returns_null_witness :
    processLog ([("0xp1", [("0xb", (5 : Int))])] : PoolStateMap) none = none ∧
    alookup ([("0xp1", [("0xb", (5 : Int))])] : PoolStateMap)
        (eventAddress (VaultEvent.Swap "0xp1" "0xa" "0xb" 1 1)) = some [("0xb", 5)] ∧
    applyHandler (VaultEvent.Swap "0xp1" "0xa" "0xb" 1 1) [("0xb", 5)] = none ∧
    processLog [("0xp1", [("0xb", 5)])]
        (some (VaultEvent.Swap "0xp1" "0xa" "0xb" 1 1)) = none :=
  ⟨processLog_failure_returns_null.1 _, by decide, by decide,
   processLog_failure_returns_null.2 [("0xp1", [("0xb", 5)])]
     (VaultEvent.Swap "0xp1" "0xa" "0xb" 1 1) [("0xb", 5)] (by decide) (by decide)⟩

/-- C5: a successfully decoded event whose name has no handler, or whose pool
address is not a key of the tracked state map, makes `processLog` return a
state equal in value to its input (never `null`). -/
theorem processLog_noop_cases :
    (∀ (state : PoolStateMap) (name : String),
      processLog state (some (VaultEvent.Other name)) = some state) ∧
    (∀ (state : PoolStateMap) (ev : VaultEvent),
      alookup state (eventAddress ev) = none →
      processLog state (some ev) = some state) := by
  refine ⟨fun _ _ => rfl, fun state ev hmiss => ?_⟩
  cases ev with
  | Swap poolId tokenIn tokenOut amountIn amountOut =>
    simp only [processLog, hmiss]
  | PoolBalanceChanged poolId tokens deltas fees =>
    simp only [processLog, hmiss]
  | Other name => rfl

/-- C5 witness: an unrecognized event name, and a Swap addressed to an
untracked pool, both leave the state as is. -/
theorem processLog_noop_cases_witness :
    processLog ([("0xp1", [("0xa", (7 : Int))])] : PoolStateMap)
        (some (VaultEvent.Other "PoolRegistered")) = some [("0xp1", [("0xa", 7)])] ∧
    alookup ([("0xp1", [("0xa", (7 : Int))])] : PoolStateMap)
        (eventAddress (VaultEvent.Swap "0xp9" "0xa" "0xb" 1 2)) = none ∧
    processLog [("0xp1", [("0xa", 7)])]
        (some (VaultEvent.Swap "0xp9" "0xa" "0xb" 1 2)) = some [("0xp1", [("0xa", 7)])] :=
  ⟨processLog_noop_cases.1 _ _, by decide,
   processLog_noop_cases.2 _ _ (by decide)⟩

theorem alookup_mapVal {α β : Type} (g : α → β) (l : List (String × α)) (k : String) :
    alookup (l.map fun kv => (kv.1, g kv.2)) k = (alookup l k).map g := by
  induction l with
  | nil => rfl
  | cons kv rest ih =>
    by_cases h : kv.1 = k <;> simp [alookup, h, ih]

theorem alookup_mem {α : Type} (l : List (String × α)) (k : String) (v : α)
    (h : alookup l k = some v) : (k, v) ∈ l := by
  induction l with
  | nil => simp [alookup] at h
  | cons kv rest ih =>
    obtain ⟨k1, v1⟩ := kv
    simp only [alookup] at h
    by_cases hk : k1 = k
    · rw [if_pos hk] at h
      obtain rfl := Option.some.inj h
      subst hk
      exact List.mem_cons_self _ _
    · rw [if_neg hk] at h
      exact List.mem_cons_of_mem _ (ih h)

theorem mergeMaps_mapVal {α β : Type} (g : α → β) (o n : List (String × α)) :
    (mergeMaps o n).map (fun kv => (kv.1, g kv.2)) =
      mergeMaps (o.map fun kv => (kv.1, g kv.2)) (n.map fun kv => (kv.1, g kv.2)) := by
  unfold mergeMaps
  rw [List.map_append]
  congr 1
  · induction o with
    | nil => rfl
    | cons kv rest ih =>
      simp only [List.map_cons, List.cons.injEq]
      refine ⟨?_, ih⟩
      rw [alookup_mapVal]
      cases alookup n kv.1 <;> rfl
  · induction n with
    | nil => rfl
    | cons kv rest ih =>
      have hpred : (alookup (o.map fun kv2 => (kv2.1, g kv2.2)) kv.1).isNone =
          (alookup o kv.1).isNone := by
        rw [alookup_mapVal]
        cases alookup o kv.1 <;> rfl
      simp only [List.map_cons, List.filter_cons, hpred]
      cases h : (alookup o kv.1).isNone <;> simp [h, ih]

theorem mergeMaps_value_mem {α : Type} (o n : List (String × α)) (kv : String × α)
    (h : kv ∈ mergeMaps o n) : kv.2 ∈ o.map Prod.snd ∨ kv.2 ∈ n.map Prod.snd := by
  unfold mergeMaps at h
  rcases List.mem_append.mp h with h | h
  · obtain ⟨u, hu, heq⟩ := List.mem_map.mp h
    cases hlk : alookup n u.1 with
    | some v =>
      rw [hlk] at heq
      right
      rw [← heq]
      exact List.mem_map_of_mem Prod.snd (alookup_mem n u.1 v hlk)
    | none =>
      rw [hlk] at heq
      left
      rw [← heq]
      exact List.mem_map_of_mem Prod.snd hu
  · exact Or.inr (List.mem_map_of_mem Prod.snd (List.mem_of_mem_filter h))

theorem tagsConsistent_apply (c : TaggedCache) (op : CacheOp)
    (hC : tagsConsistent c) : tagsConsistent (applyTaggedOp c op) := by
  cases op with
  | get bn =>
    simp only [applyTaggedOp]
    by_cases h : c.blockNumber ≠ bn
    · rw [if_pos h]
      intro kv hkv
      simp at hkv
    · rw [if_neg h]
      exact hC
  | update ps bn =>
    simp only [applyTaggedOp]
    by_cases h : c.blockNumber ≠ bn
    · rw [if_pos h]
      intro kv hkv
      simp only [tagMap, List.mem_map] at hkv
      obtain ⟨u, hu, heq⟩ := hkv
      rw [← heq]
    · rw [if_neg h]
      push_neg at h
      intro kv hkv
      rcases mergeMaps_value_mem _ _ _ hkv with hv | hv
      · obtain ⟨u, hu, hueq⟩ := List.mem_map.mp hv
        show kv.2.2 = c.blockNumber
        rw [← hueq]
        exact hC u hu
      · obtain ⟨u, hu, hueq⟩ := List.mem_map.mp hv
        show kv.2.2 = c.blockNumber
        rw [← hueq]
        simp only [tagMap, List.mem_map] at hu
        obtain ⟨w, hw, hweq⟩ := hu
        rw [← hweq]
        exact h.symm

theorem tagsConsistent_run (ops : List CacheOp) :
    ∀ c, tagsConsistent c → tagsConsistent (ops.foldl applyTaggedOp c) := by
  induction ops with
  | nil => exact fun _ h => h
  | cons op rest ih => exact fun c h => ih _ (tagsConsistent_apply c op h)

theorem eraseTags_tagMap (ps : PoolStateMap) (bn : Nat) :
    (tagMap ps bn).map (fun kv => (kv.1, kv.2.1)) = ps := by
  induction ps with
  | nil => rfl
  | cons kv rest ih =>
    simp only [tagMap, List.map_cons] at ih ⊢
    rw [ih]

theorem eraseTags_apply (c : TaggedCache) (op : CacheOp) :
    eraseTags (applyTaggedOp c op) = applyCacheOp (eraseTags c) op := by
  cases op with
  | get bn =>
    by_cases h : c.blockNumber ≠ bn <;>
      simp [applyTaggedOp, applyCacheOp, getNonEventPoolStateCache, eraseTags, h]
  | update ps bn =>
    by_cases h : c.blockNumber ≠ bn
    · simp [applyTaggedOp, applyCacheOp, updateNonEventPoolStateCache, eraseTags, h,
        eraseTags_tagMap]
    · simp only [applyTaggedOp, applyCacheOp, updateNonEventPoolStateCache, eraseTags,
        h, if_false]
      rw [mergeMaps_mapVal, eraseTags_tagMap]

theorem eraseTags_run (ops : List CacheOp) :
    ∀ c, eraseTags (ops.foldl applyTaggedOp c) = ops.foldl applyCacheOp (eraseTags c) := by
  induction ops with
  | nil => exact fun _ => rfl
  | cons op rest ih =>
    intro c
    rw [List.foldl_cons, List.foldl_cons, ih, eraseTags_apply]

theorem alookup_append {α : Type} (l1 l2 : List (String × α)) (k : String) :
    alookup (l1 ++ l2) k =
      match alookup l1 k with
      | some v => some v
      | none => alookup l2 k := by
  induction l1 with
  | nil => rfl
  | cons kv rest ih =>
    obtain ⟨k1, v1⟩ := kv
    by_cases h : k1 = k <;> simp [alookup, h, ih]

theorem alookup_mergeMaps_map {α : Type} (o n : List (String × α)) (k : String) :
    alookup (o.map fun kv =>
      match alookup n kv.1 with
      | some v => (kv.1, v)
      | none => kv) k =
      match alookup o k, alookup n k with
      | none, _ => none
      | some _, some v => some v
      | some w, none => some w := by
  induction o with
  | nil => rfl
  | cons kv rest ih =>
    obtain ⟨k1, v1⟩ := kv
    by_cases h : k1 = k
    · subst h
      cases hn : alookup n k1 <;> simp [alookup, hn]
    · cases hn : alookup n k1 <;> simp [alookup, hn, h, ih]

theorem alookup_filter_absent {α : Type} (o n : List (String × α)) (k : String) :
    alookup (n.filter fun kv => (alookup o kv.1).isNone) k =
      match alookup o k with
      | none => alookup n k
      | some _ => none := by
  induction n with
  | nil => cases alookup o k <;> rfl
  | cons kv rest ih =>
    obtain ⟨k1, v1⟩ := kv
    by_cases h : k1 = k
    · subst h
      cases ho : alookup o k1 <;> simp [List.filter_cons, ho, alookup, ih]
    · cases hp : alookup o k1 <;> simp [List.filter_cons, hp, alookup, h, ih]

theorem alookup_mergeMaps {α : Type} (o n : List (String × α)) (k : String) :
    alookup (mergeMaps o n) k =
      match alookup n k with
      | some v => some v
      | none => alookup o k := by
  unfold mergeMaps
  rw [alookup_append, alookup_mergeMaps_map, alookup_filter_absent]
  cases ho : alookup o k <;> cases hn : alookup n k <;> rfl

theorem alookup_adelete {α : Type} (m : List (String × α)) (k0 k : String) :
    alookup (adelete m k0) k = if k = k0 then none else alookup m k := by
  induction m with
  | nil => simp [adelete, alookup]
  | cons kv rest ih =>
    obtain ⟨k1, v1⟩ := kv
    by_cases h1 : k1 = k0 <;> by_cases h2 : k1 = k <;>
      simp_all [adelete, List.filter_cons, alookup]

theorem alookup_deleteKeys {α : Type} (ks : List String) (m : List (String × α))
    (k : String) :
    alookup (deleteKeys m ks) k = if k ∈ ks then none else alookup m k := by
  induction ks generalizing m with
  | nil => simp [deleteKeys]
  | cons k0 rest ih =>
    show alookup (deleteKeys (adelete m k0) rest) k = _
    rw [ih, alookup_adelete]
    by_cases h1 : k ∈ rest <;> by_cases h2 : k = k0 <;>
      simp [h1, h2, List.mem_cons]

/-! ## Claim theorems: quoting -/

/-- C7: `getPricesPool` evaluates the strategy's sell function on the amount
vector with its first element replaced by the unit-probe volume, reports the
strategy's first output separately as the `unit` price, and returns a prices
array starting with `0` followed by the strategy's outputs for the remaining
amounts. -/
theorem getPricesPool_unit_probe (strategies : String → PoolStrategy)
    (fromT toT : Token) (pool : SubgraphPool) (poolStates : PoolStateMap)
    (amounts : List Int) (unitVolume : Int) (side : SwapSide)
    (p : Int) (ps : List Int)
    (hsup : isSupportedPool pool.poolType = true)
    (hcheck : (strategies pool.poolType).checkBalance amounts unitVolume side
      ((strategies pool.poolType).parsePoolPairData pool poolStates
        fromT.address toT.address) = true)
    (hsell : (strategies pool.poolType).onSell (unitVolume :: amounts.drop 1)
      ((strategies pool.poolType).parsePoolPairData pool poolStates
        fromT.address toT.address) = p :: ps) :
    getPricesPool strategies fromT toT pool poolStates amounts unitVolume side =
      some { unit := p, prices := 0 :: ps,
             gasCost := ((strategies pool.poolType).parsePoolPairData pool poolStates
               fromT.address toT.address).gasCost } := by
  simp only [getPricesPool, hsup, if_true, hcheck, hsell, List.headD_cons,
    List.drop_succ_cons, List.drop_zero]

/-- C7 witness: amounts [5, 100, 500], unit probe 10 — the strategy is asked
to sell [10, 100, 500]; the unit price is its first output and the prices
array is [0, 100, 500]. -/
theorem getPricesPool_unit_probe_witness :
    isSupportedPool demoPool.poolType = true ∧
    idStrategy.checkBalance [5, 100, 500] 10 SwapSide.SELL
      (idStrategy.parsePoolPairData demoPool [] "0xa" "0xb") = true ∧
    idStrategy.onSell ((10 : Int) :: [(5 : Int), 100, 500].drop 1)
      (idStrategy.parsePoolPairData demoPool [] "0xa" "0xb") = 10 :: [100, 500] ∧
    getPricesPool (fun _ => idStrategy) { address := "0xa", decimals := 0 }
        { address := "0xb", decimals := 0 } demoPool [] [5, 100, 500] 10
        SwapSide.SELL =
      some { unit := 10, prices := [0, 100, 500], gasCost := 42 } :=
  ⟨rfl, rfl, rfl,
   getPricesPool_unit_probe (fun _ => idStrategy) { address := "0xa", decimals := 0 }
     { address := "0xb", decimals := 0 } demoPool [] [5, 100, 500] 10 SwapSide.SELL
     10 [100, 500] rfl rfl rfl⟩

/-- C10: on the BUY side the public quoting interface yields nothing —
`getPricesVolume` returns `null`, `getPoolIdentifiers` returns the empty
list, and `getAdapters` returns `null`, independently of every other
argument and of any pool state. -/
theorem buy_side_yields_nothing :
    ∀ (cfg : DexConfig) (fromT toT : Token) (amounts : List Int)
      (blockNumber : Nat) (limitPools : Option (List String))
      (getStateResult : Option PoolStateMap)
      (onChainFetch : List SubgraphPool → Nat → PoolStateMap)
      (cache : PoolStateCache) (adapters : Option (List AdapterEntry)),
      getPricesVolume cfg fromT toT amounts SwapSide.BUY blockNumber limitPools
          getStateResult onChainFetch cache = (none, cache) ∧
      getPoolIdentifiers cfg fromT toT SwapSide.BUY blockNumber = [] ∧
      getAdapters adapters SwapSide.BUY = none := by
  intro cfg fromT toT amounts blockNumber limitPools getStateResult onChainFetch
    cache adapters
  exact ⟨rfl, rfl, rfl⟩

/-- C8: with an allow-list supplied, a candidate pool passes the filter
exactly when its `{dexKey}_{address}` id is listed and, whenever its group id
resolves to a virtual-boosted group, its `...virtualboosted` id and the
`{dexKey}_{spokeAddress}` id of every spoke are listed as well; the allowed
pools are precisely the candidates passing this filter. -/
theorem limitPools_allowlist (dexKey : String) (vbPools : BoostedPools)
    (limitPools : List String) (pool : SubgraphPool) :
    (limitPoolsFilter dexKey vbPools limitPools pool = true ↔
      ((dexKey ++ "_" ++ lowerStr pool.address) ∈ limitPools ∧
       ∀ vb, alookup vbPools (poolGroupId pool) = some vb →
         (dexKey ++ "_" ++ lowerStr pool.address ++ "virtualboosted") ∈ limitPools ∧
         ∀ t ∈ vb.mainTokens,
           (dexKey ++ "_" ++ lowerStr t.linearPoolAddr) ∈ limitPools)) ∧
    ∀ (allPools : List SubgraphPool) (fromT toT : Token),
      pool ∈ (getPools allPools fromT toT).filter
          (limitPoolsFilter dexKey vbPools limitPools) ↔
        pool ∈ getPools allPools fromT toT ∧
          limitPoolsFilter dexKey vbPools limitPools pool = true := by
  constructor
  · by_cases h1 : (dexKey ++ "_" ++ lowerStr pool.address) ∈ limitPools
    · cases hvb : alookup vbPools (poolGroupId pool) with
      | none =>
        simp [limitPoolsFilter, hvb, h1]
      | some vb =>
        simp only [limitPoolsFilter, hvb, h1, List.elem_eq_mem, decide_eq_true_eq,
          decide_True, Bool.not_true, Bool.false_eq_true, if_false, Bool.and_eq_true,
          List.all_eq_true, true_and, forall_eq]
        constructor
        · rintro ⟨ha, hb⟩ vb2 hvb2
          cases Option.some.inj hvb2
          exact ⟨ha, hb⟩
        · intro h
          exact h vb rfl
    · simp [limitPoolsFilter, h1]
  · intro allPools fromT toT
    exact List.mem_filter

/-- C6: the non-event cache never mixes heights. Instrumenting every held
entry with the height of the update that inserted it, any sequence of
`getNonEventPoolStateCache` / `updateNonEventPoolStateCache` calls from the
constructor's initial cache keeps every tag equal to the cache's single
recorded block number (and the instrumented run erases to the real one);
in particular a read or an overwrite-update at a different height discards
every previous entry, while an update at the recorded height merges. -/
theorem nonEventCache_single_height :
    (∀ ops : List CacheOp, tagsConsistent (runTaggedOps ops)) ∧
    (∀ ops : List CacheOp, eraseTags (runTaggedOps ops) = runCacheOps ops) ∧
    (∀ (c : PoolStateCache) (h2 : Nat), c.blockNumber ≠ h2 →
      getNonEventPoolStateCache c h2 = ([], { c with poolState := [] })) ∧
    (∀ (c : PoolStateCache) (ps : PoolStateMap) (h2 : Nat), c.blockNumber ≠ h2 →
      updateNonEventPoolStateCache c ps h2 =
        (ps, { blockNumber := h2, poolState := ps })) ∧
    (∀ (c : PoolStateCache) (ps : PoolStateMap),
      updateNonEventPoolStateCache c ps c.blockNumber =
        (mergeMaps c.poolState ps,
         { c with poolState := mergeMaps c.poolState ps })) := by
  refine ⟨?_, ?_, ?_, ?_, ?_⟩
  · intro ops
    exact tagsConsistent_run ops _ (fun kv hkv => absurd hkv (List.not_mem_nil kv))
  · intro ops
    exact eraseTags_run ops _
  · intro c h2 h
    simp [getNonEventPoolStateCache, h]
  · intro c ps h2 h
    simp [updateNonEventPoolStateCache, h]
  · intro c ps
    simp [updateNonEventPoolStateCache]

/-- C6 witness: a cache populated at height 1 — a read at height 2 clears it,
an update at height 2 overwrites it wholesale, an update at height 1 merges. -/
theorem nonEventCache_single_height_witness :
    ((⟨1, [("0xp", [("0xa", (5 : Int))])]⟩ : PoolStateCache).blockNumber ≠ 2) ∧
    getNonEventPoolStateCache ⟨1, [("0xp", [("0xa", 5)])]⟩ 2 = ([], ⟨1, []⟩) ∧
    updateNonEventPoolStateCache ⟨1, [("0xp", [("0xa", 5)])]⟩ [("0xq", [])] 2 =
      ([("0xq", [])], ⟨2, [("0xq", [])]⟩) ∧
    updateNonEventPoolStateCache ⟨1, [("0xp", [("0xa", 5)])]⟩ [("0xq", [])] 1 =
      (mergeMaps [("0xp", [("0xa", 5)])] [("0xq", [])],
       ⟨1, mergeMaps [("0xp", [("0xa", 5)])] [("0xq", [])]⟩) :=
  ⟨by decide,
   nonEventCache_single_height.2.2.1 ⟨1, [("0xp", [("0xa", 5)])]⟩ 2 (by decide),
   nonEventCache_single_height.2.2.2.1 ⟨1, [("0xp", [("0xa", 5)])]⟩ [("0xq", [])] 2
     (by decide),
   nonEventCache_single_height.2.2.2.2 ⟨1, [("0xp", [("0xa", 5)])]⟩ [("0xq", [])]⟩

/-- C3 counterexample: a pool whose address is in the disabled set and whose
state is present in the event snapshot is still priced — it is treated as
"missing", re-fetched on-chain, and appears in the returned price list (the
claim says it must never appear). -/
theorem disabled_pool_in_results_counterexample :
    "0xp1" ∈ demoConfigDisabled.eventDisabledPools ∧
    (alookup ((some [("0xp1", [("0xa", (1000 : Int)), ("0xb", 2000)])] :
        Option PoolStateMap).getD []) "0xp1").isSome = true ∧
    ((getPricesVolume demoConfigDisabled { address := "0xa", decimals := 0 }
          { address := "0xb", decimals := 0 } [1, 100] SwapSide.SELL 7 none
          (some [("0xp1", [("0xa", 1000), ("0xb", 2000)])])
          (fun _ _ => [("0xp1", [("0xa", 1000), ("0xb", 2000)])])
          { blockNumber := 0, poolState := [] }).1.getD []).map
        (fun e => e.poolAddresses) = [["0xp1"]] := by
  refine ⟨by decide, by decide, by decide⟩

/-- C3 amended: the disabled address is dropped from the event-snapshot view,
so whenever a disabled pool is priced the per-pool guard found its state in
the non-event (on-chain fetched) map, and the merged state map passed to the
strategies resolves that address to the non-event state — the pool can still
appear in quote results, but never priced from the event snapshot. -/
theorem disabled_pool_priced_from_nonevent (cfg : DexConfig) (fromT toT : Token)
    (amounts : List Int) (unitVolume : Int) (side : SwapSide)
    (ro : Option PoolStateMap) (nonEv : PoolStateMap) (pool : SubgraphPool)
    (entry : PoolPricesEntry)
    (hdis : lowerStr pool.address ∈ cfg.eventDisabledPools)
    (hpriced : pricePool cfg fromT toT amounts unitVolume side
      (eventStatesView ro cfg.eventDisabledPools) nonEv
      (mergeMaps (ro.getD []) nonEv) pool = some entry) :
    alookup (eventStatesView ro cfg.eventDisabledPools) (lowerStr pool.address) =
      none ∧
    (alookup nonEv (lowerStr pool.address)).isSome = true ∧
    alookup (mergeMaps (ro.getD []) nonEv) (lowerStr pool.address) =
      alookup nonEv (lowerStr pool.address) := by
  have h1 : alookup (eventStatesView ro cfg.eventDisabledPools)
      (lowerStr pool.address) = none := by
    unfold eventStatesView
    rw [alookup_deleteKeys]
    simp [hdis]
  have h2 : ∃ s, alookup nonEv (lowerStr pool.address) = some s := by
    simp only [pricePool, h1] at hpriced
    cases hn : alookup nonEv (lowerStr pool.address) with
    | none =>
      rw [hn] at hpriced
      simp at hpriced
    | some s => exact ⟨s, rfl⟩
  obtain ⟨s, hs⟩ := h2
  refine ⟨h1, by rw [hs]; rfl, ?_⟩
  rw [alookup_mergeMaps, hs]

/-- C3 amended witness: the counterexample's data — the disabled pool is
priced, its state found in and resolved to the freshly fetched map. -/
theorem disabled_pool_priced_from_nonevent_witness :
    lowerStr demoPool.address ∈ demoConfigDisabled.eventDisabledPools ∧
    pricePool demoConfigDisabled { address := "0xa", decimals := 0 }
        { address := "0xb", decimals := 0 } [1, 100] 1 SwapSide.SELL
        (eventStatesView (some [("0xp1", [("0xa", 1000), ("0xb", 2000)])])
          demoConfigDisabled.eventDisabledPools)
        [("0xp1", [("0xa", 1000), ("0xb", 2000)])]
        (mergeMaps ((some [("0xp1", [("0xa", (1000 : Int)), ("0xb", 2000)])] :
            Option PoolStateMap).getD [])
          [("0xp1", [("0xa", 1000), ("0xb", 2000)])]) demoPool =
      some { unit := 1, prices := [0, 100], poolId := "0xp1weighted",
             poolAddresses := ["0xp1"], exchange := "BalancerV2", gasCost := 42,
             poolIdentifier := "BalancerV2_0xp1weighted" } ∧
    (alookup (eventStatesView (some [("0xp1", [("0xa", 1000), ("0xb", 2000)])])
        demoConfigDisabled.eventDisabledPools) (lowerStr demoPool.address) = none ∧
     (alookup [("0xp1", [("0xa", (1000 : Int)), ("0xb", 2000)])]
        (lowerStr demoPool.address)).isSome = true ∧
     alookup (mergeMaps ((some [("0xp1", [("0xa", (1000 : Int)), ("0xb", 2000)])] :
          Option PoolStateMap).getD [])
        [("0xp1", [("0xa", 1000), ("0xb", 2000)])]) (lowerStr demoPool.address) =
       alookup [("0xp1", [("0xa", (1000 : Int)), ("0xb", 2000)])]
         (lowerStr demoPool.address)) :=
  ⟨by decide, by decide,
   disabled_pool_priced_from_nonevent demoConfigDisabled
     { address := "0xa", decimals := 0 } { address := "0xb", decimals := 0 }
     [1, 100] 1 SwapSide.SELL (some [("0xp1", [("0xa", 1000), ("0xb", 2000)])])
     [("0xp1", [("0xa", 1000), ("0xb", 2000)])] demoPool
     { unit := 1, prices := [0, 100], poolId := "0xp1weighted",
       poolAddresses := ["0xp1"], exchange := "BalancerV2", gasCost := 42,
       poolIdentifier := "BalancerV2_0xp1weighted" }
     (by decide) (by decide)⟩

/-- C9 counterexample: with `getState` yielding no snapshot (`none`), the
quote does not return null/empty — it re-fetches the candidate on-chain at
the requested height and returns a non-empty price list. -/
theorem missing_snapshot_counterexample :
    (getPricesVolume demoConfig { address := "0xa", decimals := 0 }
        { address := "0xb", decimals := 0 } [1, 100] SwapSide.SELL 7 none none
        (fun _ _ => [("0xp1", [("0xa", 1000), ("0xb", 2000)])])
        { blockNumber := 0, poolState := [] }).1 =
      some [{ unit := 1, prices := [0, 100], poolId := "0xp1weighted",
              poolAddresses := ["0xp1"], exchange := "BalancerV2", gasCost := 42,
              poolIdentifier := "BalancerV2_0xp1weighted" }] := by
  decide

/-- C9 amended: when `getState` yields no snapshot the quote proceeds exactly
as with an empty snapshot — candidates are fetched on-chain pinned to the
requested block number and priced from that state (so no mismatched-height
state is used), and the result need not be empty. -/
theorem missing_snapshot_empty_view (cfg : DexConfig) (fromT toT : Token)
    (amounts : List Int) (side : SwapSide) (blockNumber : Nat)
    (limitPools : Option (List String))
    (onChainFetch : List SubgraphPool → Nat → PoolStateMap)
    (cache : PoolStateCache) :
    getPricesVolume cfg fromT toT amounts side blockNumber limitPools none
        onChainFetch cache =
      getPricesVolume cfg fromT toT amounts side blockNumber limitPools (some [])
        onChainFetch cache := rfl

end BalancerV2
